import Mathlib

/-!
Verification of the pycroscopy translation and clustering layer.

This file shallowly embeds the code of
`pycroscopy/processing/cluster.py`,
`pycroscopy/io/translators/gmode_line.py`,
`pycroscopy/io/translators/gmode_iv.py` and
`pycroscopy/io/translators/igor_ibw.py`
as executable Lean definitions (lists over `Nat`/`Int`/`ℚ`, explicit
wraparound for numpy unsigned casts, python slice semantics with index
clamping), and proves or refutes the frozen specification claims about
them.  External collaborators (h5py storage, scipy linkage, the
`io_utils`/`hdf_utils` helpers that are not part of the analysed sources)
are modelled abstractly: scipy's hierarchical linkage output is an oracle
parameter constrained by its documented shape, and dtype transforms are
abstract function parameters.
-/

namespace Pycroscopy

/-! ## Python / numpy primitives -/

/-- Clamp an integer slice bound to `[0, len]` the way python slicing does:
negative indices count from the end, out-of-range indices saturate. -/
def pyClamp (len : Nat) (i : Int) : Nat :=
  if i < 0 then ((len : Int) + i).toNat else min i.toNat len

/-- Python list slicing `l[a:b]` (step 1), with python's clamping of both
bounds. -/
def pySliceList (l : List α) (a b : Int) : List α :=
  (l.take (pyClamp l.length b)).drop (pyClamp l.length a)

/-- `np.uint` (64-bit unsigned) conversion with wraparound. -/
def npUint (x : Int) : Nat := (x % (2 : Int) ^ 64).toNat

/-- `np.uint32` conversion with wraparound. -/
def npUint32 (x : Int) : Nat := (x % (2 : Int) ^ 32).toNat

/-- `np.round`: round half to even, yielding an integer. -/
def npRound (q : ℚ) : Int :=
  if q - ⌊q⌋ < 1 / 2 then ⌊q⌋
  else if 1 / 2 < q - ⌊q⌋ then ⌊q⌋ + 1
  else if ⌊q⌋ % 2 = 0 then ⌊q⌋ else ⌊q⌋ + 1

/-- `np.tile(l, n)`: the list repeated `n` times. -/
def npTile (l : List ℚ) (n : Nat) : List ℚ := (List.replicate n l).flatten

/-! ## `Cluster._get_component_slice` (cluster.py, lines 132-176)

The `num_comps` argument of `Cluster.__init__` is `None`, a python `int`,
or an iterable of ints (a `dict` and the pre-built `slice` case are not
exercised by the claims; unsupported types raise).  The function returns
either a python `slice` or a `np.uint` index array, together with the
computed number of components. -/

/-- The argument forms of `_get_component_slice` covered by the claims. -/
inductive Components where
  | cnone : Components
  | cint : Int → Components
  | clist : List Int → Components
deriving DecidableEq, Repr

/-- Result of `_get_component_slice`: a python `slice(a, b)` or a
`np.uint` index array. -/
inductive CompSel where
  | cslice : Int → Int → CompSel
  | carr : List Nat → CompSel
deriving DecidableEq, Repr

/-- Whether the selection is a numpy index array
(`isinstance(self.data_slice[1], np.ndarray)` in `_write_to_hdf5`). -/
def CompSel.isArr : CompSel → Bool
  | .carr _ => true
  | .cslice _ _ => false

/-- Embedding of `Cluster._get_component_slice` for a main dataset with
`F` features.  `None` gives `slice(0, F)`; an int `n` gives
`slice(0, min(n, F))` with `num_comps = min(n, F)`; a length-2 iterable
`[a, b]` gives `slice(a, b)` with `num_comps = abs(b - a)`; any other
iterable is converted with `np.uint` and `num_comps` is its length. -/
def get_component_slice (F : Nat) : Components → CompSel × Int
  | .cnone => (.cslice 0 F, F)
  | .cint n => (.cslice 0 (min n F), min n F)
  | .clist l =>
      if l.length = 2 then
        (.cslice (l.getD 0 0) (l.getD 1 0), ((l.getD 1 0) - (l.getD 0 0)).natAbs)
      else
        (.carr (l.map npUint), l.length)

/-- The feature columns actually picked when `h5_main[:, comp_slice]` is
evaluated on an `F`-column dataset: a slice selects through python slice
semantics, a fancy index array selects exactly its entries and raises
(`none`) if any entry is out of range. -/
def selectedCols (F : Nat) : CompSel → Option (List Nat)
  | .cslice a b => some (pySliceList (List.range F) a b)
  | .carr l => if l.all (fun x => decide (x < F)) then some l else none

/-! ## `Cluster._write_to_hdf5` ancillary layout (cluster.py, lines 226-244
and 265-290)

A reduced `Mean_Response_Indices`/`Values` pair is created iff
`num_comps != h5_main.shape[1]`; the spectroscopic ancillary linkage of
`Mean_Response` however uses the reduced pair iff the column selection is
a numpy array, and otherwise references the source dataset's original
`Spectroscopic_Indices`/`Values`.  When the selection is an array but no
reduced pair was created, `getH5DsetRefs(['Mean_Response_Indices'], ...)`
returns an empty list and the `[0]` access raises `IndexError`. -/

/-- Which ancillary datasets `_write_to_hdf5` creates and links for
`Mean_Response`. -/
structure WriteLayout where
  reducedPairCreated : Bool
  linkageReduced : Bool
deriving DecidableEq, Repr

/-- Embedding of the ancillary-layout decisions of
`Cluster._write_to_hdf5` for a main dataset with `F` features. -/
def write_to_hdf5_layout (F : Nat) (cs : CompSel) (numComps : Int) :
    Except String WriteLayout :=
  let created : Bool := decide (numComps ≠ (F : Int))
  if cs.isArr && !created then .error "IndexError"
  else .ok ⟨created, cs.isArr⟩

/-! ## `Cluster.__init__` (cluster.py, lines 24-68) -/

/-- The sklearn estimator allow-list of `Cluster.__init__`. -/
def allowed_methods : List String :=
  ["AgglomerativeClustering", "Birch", "KMeans", "MiniBatchKMeans", "SpectralClustering"]

/-- Outcome of constructing `Cluster`: the two `TypeError` guards (called
`InvalidMainDatasetError` and `UnsupportedAlgorithmError` by the spec) or
a constructed object carrying the component selection.  The validator
`checkIfMain` lives in `io/hdf_utils.py`, outside the analysed sources,
and is modelled by its boolean verdict. -/
inductive ClusterInit where
  | invalidMainDataset : ClusterInit
  | unsupportedAlgorithm : ClusterInit
  | ok : CompSel → Int → ClusterInit
deriving DecidableEq, Repr

/-- Embedding of `Cluster.__init__`: check the main dataset, then the
algorithm name, then compute the component slice.  No clustering is
performed at construction time (`fit` only runs inside `do_cluster`). -/
def cluster_init (isMain : Bool) (method : String) (F : Nat)
    (numComps : Components) : ClusterInit :=
  if !isMain then .invalidMainDataset
  else if method ∉ allowed_methods then .unsupportedAlgorithm
  else
    let cn := get_component_slice F numComps
    .ok cn.1 cn.2

/-! ## `GLineTranslator.translate` (gmode_line.py)

The run first scans the directory (`_parse_file_path`, which always
succeeds and returns possibly-incomplete path dictionaries), deletes a
pre-existing output file, then accesses `parm_paths['parm_mat']`,
`parm_paths['parm_txt']` and `data_paths[0]` — each a `KeyError` when the
corresponding file is absent — computes the fractional row count, and
warns-and-returns-`None` when the data file size is not a whole multiple
of the row size.  Only after that is the output file created; the
`Spectroscopic_Values` data is overridden with the tiled `BE_wave`
(line 140) before the channel trees are committed. -/

/-- Outcome of a translator run: a raised python exception, python `None`
(the incomplete-rows path of `GLineTranslator.translate`), or normal
completion returning the h5 path. -/
inductive TransOutcome where
  | raises : String → TransOutcome
  | retNone : TransOutcome
  | completes : TransOutcome
deriving DecidableEq, Repr

/-- Whether a run either completed or raised (the two outcomes the spec
admits). -/
def TransOutcome.completesOrRaises : TransOutcome → Bool
  | .raises _ => true
  | .retNone => false
  | .completes => true

/-- Directory contents and parameters relevant to
`GLineTranslator.translate`. -/
structure GLineDir where
  hasParmMat : Bool
  hasParmTxt : Bool
  hasData0 : Bool
  preexistingH5 : Bool
  beWave : List ℚ
  numCols : Nat
  fileSize : Nat
deriving Repr

/-- Observable effects of one `GLineTranslator.translate` run. -/
structure GLineResult where
  outcome : TransOutcome
  deletedPreexisting : Bool
  outputCreated : Bool
  specValsData : Option (List ℚ)
deriving DecidableEq, Repr

/-- Embedding of `GLineTranslator.translate`. -/
def gline_translate (d : GLineDir) : GLineResult :=
  let deleted := d.preexistingH5
  if !d.hasParmMat then ⟨.raises "KeyError", deleted, false, none⟩
  else if !d.hasParmTxt then ⟨.raises "KeyError", deleted, false, none⟩
  else if !d.hasData0 then ⟨.raises "KeyError", deleted, false, none⟩
  else
    let points_per_pixel := d.beWave.length
    let denom := 4 * points_per_pixel * d.numCols
    if denom = 0 then ⟨.raises "ZeroDivisionError", deleted, false, none⟩
    else if d.fileSize % denom ≠ 0 then ⟨.retNone, deleted, false, none⟩
    else ⟨.completes, deleted, true, some (npTile d.beWave d.numCols)⟩

/-! ## `GIVTranslator._read_parms` (gmode_iv.py, lines 145-214) -/

/-- The fields `_read_parms` reads from the parameter `.mat` file.  The
`pulse_duration`/`pulse_height` pair may be absent (`none`); numpy casts
(`np.uint32`, `np.float32`) are applied by the reader, so integral fields
are already naturals and real fields rationals. -/
structure GIVParmFile where
  samp_rate : Nat
  amp_gain : Nat
  frequency : ℚ
  amplitude : ℚ
  offset : ℚ
  excit_wfm : List ℚ
  pulse : Option (ℚ × ℚ)
  line_time : ℚ
  num_lines : Nat
  scan_height : ℚ
  scan_width : ℚ
  scan_speed : ℚ
deriving DecidableEq, Repr

/-- The derived entries of `parm_dict` produced by `_read_parms`. -/
structure GIVParms where
  samp_rate : Nat
  amp_gain : Nat
  extra_pts : Int
  pulse_height : ℚ
  pulse_time : ℚ
  pulse_points : Nat
  excitation_duration : ℚ
  excitation_length : Nat
  grid_num_rows : Nat
  grid_num_cols : Nat
deriving DecidableEq, Repr

/-- The pulse duration `_read_parms` works with: the stored field, or 0.0
when the `pulse_duration`/`pulse_height` fields are absent. -/
def pulseDurationOf (p : GIVParmFile) : ℚ :=
  match p.pulse with
  | some x => x.1
  | none => 0

/-- `pts_per_cycle = int(np.round(1.0 * samp_rate / frequency))`. -/
def ptsPerCycleOf (p : GIVParmFile) : Int :=
  npRound ((p.samp_rate : ℚ) / p.frequency)

/-- Embedding of `GIVTranslator._read_parms`; returns `none` when
`len(excit_wfm) % pts_per_cycle` raises `ZeroDivisionError`.  Python's
`%` on ints is floored modulo, i.e. `Int.fmod`. -/
def giv_read_parms (p : GIVParmFile) : Option (GIVParms × List ℚ) :=
  let pts_per_cycle := ptsPerCycleOf p
  if pts_per_cycle = 0 then none
  else
    let extra_pts : Int := Int.fmod (p.excit_wfm.length : Int) pts_per_cycle
    let pulse_duration := pulseDurationOf p
    let pulse_height0 : ℚ :=
      match p.pulse with
      | some x => x.2
      | none => 0
    let pulse_height := if pulse_duration = 0 then 0 else pulse_height0
    let pulse_points : Int := npRound (pulse_duration * (p.samp_rate : ℚ))
    let line_time := p.line_time - pulse_duration
    let excess_time := line_time - (extra_pts : ℚ) / (p.samp_rate : ℚ)
    let wfm :=
      if 0 < extra_pts then pySliceList p.excit_wfm pulse_points (-extra_pts)
      else pySliceList p.excit_wfm pulse_points (p.excit_wfm.length : Int)
    some ({ samp_rate := p.samp_rate
            amp_gain := p.amp_gain
            extra_pts := extra_pts
            pulse_height := pulse_height
            pulse_time := pulse_duration
            pulse_points := npUint32 pulse_points
            excitation_duration := line_time - excess_time
            excitation_length := wfm.length
            grid_num_rows := p.num_lines
            grid_num_cols := npUint32 ⌊(wfm.length : ℚ) / (pts_per_cycle : ℚ)⌋ }, wfm)

/-! ## `GIVTranslator._read_data` (gmode_iv.py, lines 112-143) -/

/-- The `main_data` slice of `_read_data`: `slice(pulse_points, None)`
when `extra_pts == 0`, else `slice(pulse_points, -extra_pts)`. -/
def givMainData (pulse_points : Nat) (extra_pts : Int) (l : List α) : List α :=
  if extra_pts = 0 then l.drop pulse_points
  else pySliceList l (pulse_points : Int) (-extra_pts)

/-- One loop iteration of `_read_data` over line `line`: a missing file
warns `File not found`; a present file whose sample count is below
`excitation_length` or whose channel count mismatches warns
`No data found` and leaves the row untouched; otherwise every channel's
row `line` is assigned the sliced column — h5py raises on a length
mismatch (`.error`), which aborts the run. -/
def givStep (pulse_points : Nat) (extra_pts : Int) (excit_len nchan : Nat)
    (file : Option (List (List ℚ))) (line : Nat)
    (st : List (List (List ℚ)) × List String) :
    Except String (List (List (List ℚ)) × List String) :=
  match file with
  | none => .ok (st.1, st.2 ++ ["File not found for: line " ++ toString line])
  | some data =>
      if data.length ≥ excit_len ∧ (data.headD []).length = nchan then
        let rows := givMainData pulse_points extra_pts data
        if rows.length = excit_len then
          .ok ((List.range nchan).map (fun chan =>
              (st.1.getD chan []).set line (rows.map (fun r => r.getD chan 0))),
            st.2)
        else .error "could not broadcast"
      else .ok (st.1, st.2 ++ ["No data found for Line " ++ toString line])

/-- The `for line_ind in range(grid_num_rows)` loop of `_read_data`,
structurally recursive on the number of remaining lines. -/
def givLoop (pulse_points : Nat) (extra_pts : Int) (excit_len nchan : Nat)
    (files : List (Option (List (List ℚ)))) :
    Nat → Nat → (List (List (List ℚ)) × List String) →
    Except String (List (List (List ℚ)) × List String)
  | 0, _, st => .ok st
  | n + 1, line, st =>
      match givStep pulse_points extra_pts excit_len nchan
          (files.getD line none) line st with
      | .error e => .error e
      | .ok st2 => givLoop pulse_points extra_pts excit_len nchan files n (line + 1) st2

/-- Embedding of `GIVTranslator._read_data`: every channel's main dataset
starts at the h5 storage default (all zeros) and the per-line loop fills
it row by row, accumulating warnings. -/
def giv_read_data (pulse_points : Nat) (extra_pts : Int)
    (excit_len num_rows nchan : Nat)
    (files : List (Option (List (List ℚ)))) :
    Except String (List (List (List ℚ)) × List String) :=
  givLoop pulse_points extra_pts excit_len nchan files num_rows 0
    (List.replicate nchan (List.replicate num_rows (List.replicate excit_len (0 : ℚ))), [])

/-! ## `GIVTranslator.translate` (gmode_iv.py, lines 31-110) -/

/-- Inputs of one `GIVTranslator.translate` run: the parameter file (read
first, before any write), the pre-existing-output flag, the `line_1.mat`
channel-count probe, and the per-line data files. -/
structure GIVInput where
  parmFile : Option GIVParmFile
  preexistingH5 : Bool
  hasLine1 : Bool
  nChanLine1 : Nat
  lineFiles : List (Option (List (List ℚ)))
deriving Repr

/-- Observable effects of one `GIVTranslator.translate` run. -/
structure GIVResult where
  outcome : TransOutcome
  deletedPreexisting : Bool
  outputCreated : Bool
  specValsData : Option (List ℚ)
deriving DecidableEq, Repr

/-- Embedding of `GIVTranslator.translate`: `_read_parms` runs before the
pre-existing output is deleted; `line_1.mat` is probed before the output
file is created; `ds_spec_vals.data` is overridden with the trimmed
excitation waveform (line 56) and committed with each channel before
`_read_data` streams the rows. -/
def giv_translate (g : GIVInput) : GIVResult :=
  match g.parmFile with
  | none => ⟨.raises "IOError", false, false, none⟩
  | some p =>
      match giv_read_parms p with
      | none => ⟨.raises "ZeroDivisionError", false, false, none⟩
      | some pw =>
          let deleted := g.preexistingH5
          if !g.hasLine1 then ⟨.raises "IOError", deleted, false, none⟩
          else
            match giv_read_data pw.1.pulse_points pw.1.extra_pts
                pw.1.excitation_length pw.1.grid_num_rows g.nChanLine1
                g.lineFiles with
            | .error e => ⟨.raises e, deleted, true, some pw.2⟩
            | .ok _ => ⟨.completes, deleted, true, some pw.2⟩

/-! ## `IgorIBWTranslator.translate`, force-curve branch (igor_ibw.py,
lines 75-101) -/

/-- Modelled from the spec: `build_ind_val_dsets` (in
`io/translators/utils.py`, outside the analysed sources) produces, for a
single spectral dimension of `n` samples with default step 1 and offset
0, the value row `offset + step * i = i` for each `i < n`. -/
def defaultSpecValues (n : Nat) : List ℚ := (List.range n).map (fun i => (i : ℚ))

/-- Embedding of the force-curve `Spectroscopic_Values` override of
`IgorIBWTranslator.translate`: the first channel labelled `ZSnsr`, else
the first channel labelled `Raw` (python `list.index` with `try/except`),
else the generated default values are kept. -/
def igor_force_spec_vals (chanLabels : List String) (chanData : List (List ℚ))
    (zLen : Nat) : List ℚ :=
  if "ZSnsr" ∈ chanLabels then chanData.getD (chanLabels.indexOf "ZSnsr") []
  else if "Raw" ∈ chanLabels then chanData.getD (chanLabels.indexOf "Raw") []
  else defaultSpecValues zLen

/-! ## `Cluster._get_mean_response` (cluster.py, lines 104-130)

The source dtype is abstracted as a type `α`; `check_dtype` /
`transformToTargetType` live in `io/io_utils.py`, outside the analysed
sources, and are modelled as abstract maps `transform : α → ℚ` (to real
space) and `inv : ℚ → α` (back to the source dtype). -/

/-- Column selection `row[comp_slice]` for an already-resolved list of
selected column indices. -/
def select_columns {α : Type _} [Inhabited α] (sel : List Nat) (row : List α) :
    List α :=
  sel.map (fun j => row.getD j default)

/-- Embedding of `Cluster._get_mean_response`: `num_clusts` is
`len(np.unique(labels))`; for each cluster index the pixel rows carrying
that label (`np.argwhere(labels == clust_ind)`, ascending) are gathered
from the column-selected data `h5_main[:, comp_slice]`, transformed,
averaged feature-wise, and transformed back.  `num_comps` is
`self.num_comps`, the declared row width of the zero-initialised
`mean_resp`; it equals the selected column count whenever the write is
legal (otherwise numpy raises a broadcast error at the row assignment,
not modelled here). -/
def get_mean_response {α : Type _} [Inhabited α] (transform : α → ℚ)
    (inv : ℚ → α) (labels : List Nat) (data : List (List α)) (sel : List Nat)
    (num_comps : Nat) : List (List α) :=
  let num_clusts := labels.toFinset.card
  let colSelected := data.map (select_columns sel)
  (List.range num_clusts).map (fun clust_ind =>
    let targ_pos := (List.range labels.length).filter
      (fun i => decide (labels.getD i 0 = clust_ind))
    let data_chunk := targ_pos.map (fun i => colSelected.getD i [])
    (List.range num_comps).map (fun j =>
      inv ((data_chunk.map (fun row => transform (row.getD j default))).sum /
        (data_chunk.length : ℚ))))

/-! ## `reorder_clusters` (cluster.py, lines 296-337)

`pdist` and `linkage(..., 'weighted')` are scipy library calls; the
linkage matrix is therefore an oracle parameter (only its first two
columns matter to this function), constrained in the theorems by the
documented shape of a hierarchical linkage over `num_clusters`
observations: each original cluster index `0 .. num_clusters - 1`
appears exactly once among the sub-`num_clusters` entries of the merge
rows. -/

/-- The `new_cluster_order` extraction loop of `reorder_clusters`: walk
the linkage rows in order, both columns left to right, collecting every
entry below `num_clusters`. -/
def extractOrder (k : Nat) (rows : List (Nat × Nat)) : List Nat :=
  ((rows.map (fun p => [p.1, p.2])).flatten).filter (fun x => decide (x < k))

/-- One assignment
`new_labels[np.where(labels == new_clust_ind)[0]] = old_clust_ind`. -/
def relabelOne (labels acc : List Nat) (oldIdx newVal : Nat) : List Nat :=
  (labels.zip acc).map (fun p => if p.1 = newVal then oldIdx else p.2)

/-- The `for old_clust_ind, new_clust_ind in enumerate(new_cluster_order)`
loop acting on the label vector (`idx` is the running `old_clust_ind`). -/
def relabelLoop (labels : List Nat) : List Nat → List Nat → Nat → List Nat
  | acc, [], _ => acc
  | acc, newVal :: rest, idx =>
      relabelLoop labels (relabelOne labels acc idx newVal) rest (idx + 1)

/-- The same loop acting on the mean-response matrix:
`new_mean_response[old_clust_ind] = mean_response[new_clust_ind]`. -/
def reorderRowsLoop {α : Type _} (mr : List (List α)) :
    List (List α) → List Nat → Nat → List (List α)
  | acc, [], _ => acc
  | acc, newIdx :: rest, idx =>
      reorderRowsLoop mr (acc.set idx (mr.getD newIdx [])) rest (idx + 1)

/-- Embedding of `reorder_clusters`: both output arrays start as zeros of
the input shapes (and dtypes: the element type `α` is preserved) and are
filled by walking `new_cluster_order`. -/
def reorder_clusters {α : Type _} [Zero α] (labels : List Nat)
    (mean_response : List (List α)) (linkRows : List (Nat × Nat)) :
    List Nat × List (List α) :=
  let num_clusters := mean_response.length
  let new_cluster_order := extractOrder num_clusters linkRows
  (relabelLoop labels (labels.map fun _ => 0) new_cluster_order 0,
   reorderRowsLoop mean_response
     (mean_response.map fun row => row.map fun _ => (0 : α))
     new_cluster_order 0)

end Pycroscopy

namespace Pycroscopy

/-! ## Theorems for C1 and C4 -/

theorem pyClamp_ofNat_le (F b : Nat) (hb : b ≤ F) : pyClamp F (b : Int) = b := by
  rw [pyClamp, if_neg (by omega : ¬ ((b : Int) < 0))]
  omega

/-- C1 (counterexample): on a main dataset with 2 features, the length-2
argument `[0, 3]` yields `slice(0, 3)` with `num_comps = 3`, but slicing
selects only the existing features `[0, 1]`, not the claimed contiguous
range `[0, 3) = [0, 1, 2]`, and `num_comps = 3` differs from the number 2
of selected features. -/
theorem get_component_slice_out_of_range_refutes_C1 :
    get_component_slice 2 (.clist [0, 3]) = (.cslice 0 3, 3) ∧
    selectedCols 2 (CompSel.cslice 0 3) = some [0, 1] ∧
    ([0, 1] : List Nat) ≠ [0, 1, 2] ∧
    (3 : Int) ≠ (([0, 1] : List Nat).length : Int) := by
  refine ⟨rfl, ?_, by decide, by decide⟩
  decide

/-- C1 (amended): for a main dataset with `F` features and in-range
arguments, `_get_component_slice` maps `None` to all `F` features, a
nonnegative integer `n` to the first `min n F` features, a length-2 pair
`[a, b]` with `a ≤ b ≤ F` to exactly the contiguous range `[a, b)`, and
any other list of in-range indices to exactly that index list; in each
case the returned `num_comps` equals the number of selected features. -/
theorem get_component_slice_selection (F : Nat) (c : Components) (hF : F ≤ 2 ^ 64) :
    (c = .cnone →
      selectedCols F (get_component_slice F c).1 = some (List.range F) ∧
      (get_component_slice F c).2 = (F : Int)) ∧
    (∀ n : Int, 0 ≤ n → c = .cint n →
      selectedCols F (get_component_slice F c).1 = some (List.range (min n.toNat F)) ∧
      (get_component_slice F c).2 = min n (F : Int)) ∧
    (∀ a b : Nat, c = .clist [(a : Int), (b : Int)] → a ≤ b → b ≤ F →
      selectedCols F (get_component_slice F c).1 = some ((List.range b).drop a) ∧
      (get_component_slice F c).2 = (b : Int) - (a : Int)) ∧
    (∀ l : List Nat, c = .clist (l.map Int.ofNat) → l.length ≠ 2 →
      (∀ x ∈ l, x < F) →
      selectedCols F (get_component_slice F c).1 = some l ∧
      (get_component_slice F c).2 = (l.length : Int)) := by
  have h0 : pyClamp F (0 : Int) = 0 := pyClamp_ofNat_le F 0 (Nat.zero_le F)
  refine ⟨?_, ?_, ?_, ?_⟩
  · rintro rfl
    refine ⟨?_, rfl⟩
    simp only [get_component_slice, selectedCols, pySliceList, List.length_range]
    rw [pyClamp_ofNat_le F F le_rfl, h0, List.drop_zero, List.take_range, min_self]
  · rintro n hn rfl
    have hmin : (0 : Int) ≤ min n F := le_min hn (by positivity)
    refine ⟨?_, rfl⟩
    simp only [get_component_slice, selectedCols, pySliceList, List.length_range]
    have h1 : pyClamp F (min n (F : Int)) = min n.toNat F := by
      rw [pyClamp, if_neg (not_lt.mpr hmin)]
      omega
    rw [h1, h0, List.drop_zero, List.take_range]
    have : min (min n.toNat F) F = min n.toNat F := by omega
    rw [this]
  · rintro a b rfl hab hbF
    constructor
    · show some (pySliceList (List.range F) (a : Int) (b : Int)) = _
      rw [pySliceList, List.length_range, pyClamp_ofNat_le F b hbF,
        pyClamp_ofNat_le F a (le_trans hab hbF), List.take_range, min_eq_left hbF]
    · show ((((b : Int) - (a : Int)).natAbs : Nat) : Int) = (b : Int) - (a : Int)
      omega
  · rintro l rfl hne hmem
    have hlen : (l.map Int.ofNat).length ≠ 2 := by simpa using hne
    have hmap : (l.map Int.ofNat).map npUint = l := by
      rw [List.map_map]
      have hcong : ∀ x ∈ l, (npUint ∘ Int.ofNat) x = id x := by
        intro x hx
        have hxF : x < F := hmem x hx
        have hx64 : (x : Int) < 2 ^ 64 := by
          have : (x : Int) < (F : Int) := by exact_mod_cast hxF
          have hF64 : (F : Int) ≤ 2 ^ 64 := by exact_mod_cast hF
          omega
        simp only [Function.comp_apply, npUint, id_eq, Int.ofNat_eq_coe]
        omega
      rw [List.map_congr_left hcong, List.map_id]
    constructor
    · simp only [get_component_slice, if_neg hlen, selectedCols, hmap]
      rw [if_pos]
      rw [List.all_eq_true]
      intro x hx
      exact decide_eq_true (hmem x hx)
    · simp only [get_component_slice, List.length_map, if_neg hne]

/-- C1 (amended, witness): the amended component-slice theorem applied to
a dataset with 4 features and the length-2 argument `[1, 3]`. -/
theorem get_component_slice_selection_witness :
    selectedCols 4 (get_component_slice 4 (.clist [1, 3])).1 =
      some ((List.range 3).drop 1) ∧
    (get_component_slice 4 (.clist [1, 3])).2 = (3 : Int) - (1 : Int) :=
  (get_component_slice_selection 4 (.clist [1, 3]) (by norm_num)).2.2.1 1 3 rfl
    (by norm_num) (by norm_num)

/-- C4 (counterexample): selecting the first 2 of 4 features with the
integer argument 2 is a strict feature subset, so the claim requires the
Mean_Response spectroscopic linkage to be the reduced pair; the code
creates the reduced pair (`reducedPairCreated = true`) but links the
original spectroscopic pair (`linkageReduced = false`). -/
theorem write_layout_int_subset_refutes_C4 :
    get_component_slice 4 (.cint 2) = (.cslice 0 2, 2) ∧
    write_to_hdf5_layout 4 (CompSel.cslice 0 2) 2 =
      .ok ⟨true, false⟩ ∧ (2 : Int) ≠ (4 : Int) := by
  refine ⟨by decide, rfl, by decide⟩

/-- C4 (amended): `_write_to_hdf5` creates the reduced
`Mean_Response_Indices`/`Values` pair iff a strict feature subset was
selected (`num_comps ≠ F`), but the spectroscopic ancillary linkage of
`Mean_Response` references the reduced pair iff the selection was passed
as an index array (an iterable of length ≠ 2); for integer and length-2
strict subsets the linkage still references the source dataset's original
spectroscopic pair. -/
theorem write_to_hdf5_layout_linkage (F : Nat) (c : Components) (w : WriteLayout)
    (hw : write_to_hdf5_layout F (get_component_slice F c).1
      (get_component_slice F c).2 = .ok w) :
    (w.reducedPairCreated = true ↔ (get_component_slice F c).2 ≠ (F : Int)) ∧
    (w.linkageReduced = true ↔ ∃ l, c = .clist l ∧ l.length ≠ 2) := by
  have hsl : ∀ a b n : Int, write_to_hdf5_layout F (.cslice a b) n =
      .ok ⟨decide (n ≠ (F : Int)), false⟩ := fun _ _ _ => rfl
  rcases c with _ | n | l
  · simp only [get_component_slice, hsl] at hw
    cases hw
    constructor
    · simp [get_component_slice]
    · simp
  · simp only [get_component_slice, hsl] at hw
    cases hw
    constructor
    · simp [get_component_slice]
    · simp
  · by_cases h2 : l.length = 2
    · simp only [get_component_slice, if_pos h2, hsl] at hw
      cases hw
      constructor
      · simp [get_component_slice, if_pos h2]
      · constructor
        · intro hfalse
          exact absurd hfalse (by simp)
        · rintro ⟨l2, heq, hne⟩
          cases heq
          exact absurd h2 hne
    · simp only [get_component_slice, if_neg h2] at hw
      rw [write_to_hdf5_layout] at hw
      by_cases hc : ((l.length : Int) = (F : Int))
      · rw [if_pos (by simp [CompSel.isArr, hc])] at hw
        cases hw
      · rw [if_neg (by simp [CompSel.isArr, hc])] at hw
        cases hw
        constructor
        · simp only [get_component_slice, if_neg h2]
          simp [hc]
        · exact ⟨fun _ => ⟨l, rfl, h2⟩, fun _ => rfl⟩

/-- C4 (amended, witness): the amended layout theorem applied to the
integer selection 2 on a 4-feature dataset. -/
theorem write_to_hdf5_layout_linkage_witness :
    ((⟨true, false⟩ : WriteLayout).reducedPairCreated = true ↔
      (get_component_slice 4 (.cint 2)).2 ≠ ((4 : Nat) : Int)) ∧
    ((⟨true, false⟩ : WriteLayout).linkageReduced = true ↔
      ∃ l, Components.cint 2 = .clist l ∧ l.length ≠ 2) :=
  write_to_hdf5_layout_linkage 4 (.cint 2) ⟨true, false⟩ rfl

/-! ## Theorems for C5, C6, C7 -/

/-- C6: constructing `Cluster` on a valid main dataset with any of the
five allow-listed algorithm names succeeds (yielding the component
selection, with no analysis performed), while a name outside the
allow-list fails with `UnsupportedAlgorithmError` and a dataset rejected
by the main-dataset validator fails with `InvalidMainDatasetError`, both
guards firing at construction time. -/
theorem cluster_init_guards (isMain : Bool) (method : String) (F : Nat)
    (numComps : Components) :
    (isMain = true → method ∈ allowed_methods →
      cluster_init isMain method F numComps =
        .ok (get_component_slice F numComps).1 (get_component_slice F numComps).2) ∧
    (isMain = false → cluster_init isMain method F numComps = .invalidMainDataset) ∧
    (isMain = true → method ∉ allowed_methods →
      cluster_init isMain method F numComps = .unsupportedAlgorithm) := by
  refine ⟨?_, ?_, ?_⟩
  · rintro rfl hm
    rw [cluster_init, if_neg (by simp), if_neg (not_not_intro hm)]
  · rintro rfl
    rw [cluster_init, if_pos (by simp)]
  · rintro rfl hm
    rw [cluster_init, if_neg (by simp), if_pos hm]

/-- C6 (witness): the construction guards at concrete inputs — a valid
dataset with `KMeans` succeeds, an invalid dataset is rejected, and the
unknown name `DBSCAN` is rejected. -/
theorem cluster_init_guards_witness :
    cluster_init true "KMeans" 5 .cnone = .ok (.cslice 0 5) 5 ∧
    cluster_init false "KMeans" 5 .cnone = .invalidMainDataset ∧
    cluster_init true "DBSCAN" 5 .cnone = .unsupportedAlgorithm :=
  ⟨(cluster_init_guards true "KMeans" 5 .cnone).1 rfl (by decide),
   (cluster_init_guards false "KMeans" 5 .cnone).2.1 rfl,
   (cluster_init_guards true "DBSCAN" 5 .cnone).2.2 rfl (by decide)⟩

/-- C5 (counterexample): a G-line run on a directory missing the required
`*_all.mat` parameter file (the other companions present, waveform `[1]`,
1 column, 4 bytes of data) with a pre-existing output file at the
destination raises — but only after deleting the pre-existing output, so
the run is not write-free and the pre-existing output is not left
untouched. -/
theorem gline_missing_parm_deletes_refutes_C5 :
    (gline_translate ⟨false, true, true, true, [1], 1, 4⟩).outcome =
      .raises "KeyError" ∧
    (gline_translate ⟨false, true, true, true, [1], 1, 4⟩).deletedPreexisting =
      true := ⟨rfl, rfl⟩

/-- C5 (amended): a G-mode IV run whose parameter file is missing raises
before any file-system write (nothing deleted, nothing created); a G-line
run whose `.mat` parameter file is missing raises before creating any
output, but only after deleting a pre-existing output file at the
destination. -/
theorem translate_missing_parm_file (g : GIVInput) (d : GLineDir)
    (hg : g.parmFile = none) (hd : d.hasParmMat = false) :
    (giv_translate g).outcome = .raises "IOError" ∧
    (giv_translate g).deletedPreexisting = false ∧
    (giv_translate g).outputCreated = false ∧
    (gline_translate d).outcome = .raises "KeyError" ∧
    (gline_translate d).outputCreated = false ∧
    (gline_translate d).deletedPreexisting = d.preexistingH5 := by
  rw [giv_translate, hg, gline_translate, hd]
  exact ⟨rfl, rfl, rfl, rfl, rfl, rfl⟩

/-- C5 (amended, witness): the missing-parameter-file theorem applied to
a concrete GIV input with no parameter file and a concrete G-line
directory with no `.mat` file. -/
theorem translate_missing_parm_file_witness :
    (giv_translate ⟨none, true, true, 1, []⟩).outcome = .raises "IOError" ∧
    (giv_translate ⟨none, true, true, 1, []⟩).deletedPreexisting = false ∧
    (giv_translate ⟨none, true, true, 1, []⟩).outputCreated = false ∧
    (gline_translate ⟨false, true, true, true, [1], 1, 8⟩).outcome =
      .raises "KeyError" ∧
    (gline_translate ⟨false, true, true, true, [1], 1, 8⟩).outputCreated = false ∧
    (gline_translate ⟨false, true, true, true, [1], 1, 8⟩).deletedPreexisting =
      (⟨false, true, true, true, [1], 1, 8⟩ : GLineDir).preexistingH5 :=
  translate_missing_parm_file ⟨none, true, true, 1, []⟩
    ⟨false, true, true, true, [1], 1, 8⟩ rfl rfl

/-- C7 (counterexample): a complete G-line directory whose data file byte
size (2) is not a whole multiple of the computed row size (4) neither
completes nor raises: `translate` warns and returns python `None`, a
third outcome. -/
theorem gline_incomplete_rows_refutes_C7 :
    (gline_translate ⟨true, true, true, false, [1], 1, 2⟩).outcome = .retNone ∧
    TransOutcome.retNone.completesOrRaises = false := ⟨rfl, rfl⟩

/-- C7 (amended): every G-mode IV invocation either completes or raises;
a G-line invocation either completes, raises, or returns `None`, and the
`None` outcome occurs exactly when all companion files are present, the
row size is nonzero, and the data file byte size is not a whole multiple
of the row size. -/
theorem translate_outcome_trichotomy (g : GIVInput) (d : GLineDir) :
    (giv_translate g).outcome.completesOrRaises = true ∧
    ((gline_translate d).outcome = .retNone ↔
      (d.hasParmMat = true ∧ d.hasParmTxt = true ∧ d.hasData0 = true ∧
       4 * d.beWave.length * d.numCols ≠ 0 ∧
       d.fileSize % (4 * d.beWave.length * d.numCols) ≠ 0)) := by
  constructor
  · cases hp : g.parmFile with
    | none => simp [giv_translate, hp, TransOutcome.completesOrRaises]
    | some p =>
        cases hr : giv_read_parms p with
        | none => simp [giv_translate, hp, hr, TransOutcome.completesOrRaises]
        | some pw =>
            by_cases hl : g.hasLine1
            · cases hd2 : giv_read_data pw.1.pulse_points pw.1.extra_pts
                  pw.1.excitation_length pw.1.grid_num_rows g.nChanLine1
                  g.lineFiles with
              | error e =>
                  simp [giv_translate, hp, hr, hd2, hl,
                    TransOutcome.completesOrRaises]
              | ok st =>
                  simp [giv_translate, hp, hr, hd2, hl,
                    TransOutcome.completesOrRaises]
            · simp [giv_translate, hp, hr, hl,
                TransOutcome.completesOrRaises]
  · by_cases h1 : d.hasParmMat
    · by_cases h2 : d.hasParmTxt
      · by_cases h3 : d.hasData0
        · by_cases h4 : 4 * d.beWave.length * d.numCols = 0
          · simp [gline_translate, h1, h2, h3, h4]
          · by_cases h5 : d.fileSize % (4 * d.beWave.length * d.numCols) = 0
            · simp [gline_translate, h1, h2, h3, h4, h5]
            · simp [gline_translate, h1, h2, h3, h4, h5]
        · simp [gline_translate, h1, h2, h3]
      · simp [gline_translate, h1, h2]
    · simp [gline_translate, h1]

/-! ## Theorems for C9 -/

theorem pyClamp_le (n : Nat) (i : Int) : pyClamp n i ≤ n := by
  rw [pyClamp]
  split <;> omega

theorem pySliceList_length (l : List α) (a b : Int) :
    (pySliceList l a b).length = pyClamp l.length b - pyClamp l.length a := by
  rw [pySliceList, List.length_drop, List.length_take]
  have := pyClamp_le l.length b
  omega

theorem npRound_nonneg (q : ℚ) (hq : 0 ≤ q) : 0 ≤ npRound q := by
  have hf : (0 : Int) ≤ ⌊q⌋ := Int.le_floor.mpr (by exact_mod_cast hq)
  rw [npRound]
  split
  · exact hf
  · split
    · omega
    · split <;> omega

/-- C9 (counterexample): a parameter file with sampling rate 1 Hz,
excitation frequency 1/2 Hz (so `pts_per_cycle = 2`), a 3-point waveform
(so `extra_pts = 1`) and a 3-second pulse (so `pulse_points = 3`) parses
to `excitation_length = 0`, while the claimed formula gives
`3 - 3 - 1 = -1 ≠ 0`. -/
theorem giv_read_parms_overrun_refutes_C9 :
    (giv_read_parms
        ⟨1, 1, 1 / 2, 0, 0, [1, 2, 3], some (3, 1), 0, 1, 0, 0, 0⟩).map
        (fun x => (x.1.excitation_length, x.1.pulse_points, x.1.extra_pts)) =
      some (0, 3, 1) ∧
    ((0 : Int) ≠ (3 : Int) - 3 - 1) := by
  refine ⟨?_, by decide⟩
  have h1 : ptsPerCycleOf ⟨1, 1, 1 / 2, 0, 0, [1, 2, 3], some (3, 1), 0, 1, 0, 0, 0⟩ =
      2 := by
    norm_num [ptsPerCycleOf, npRound]
  have h2 : Int.fmod (3 : Int) 2 = 1 := by decide
  have h3 : npRound (3 : ℚ) = 3 := by norm_num [npRound]
  rw [giv_read_parms, h1]
  norm_num [pulseDurationOf, h2, h3, pySliceList, pyClamp, npUint32]
  decide

/-- C9 (amended): for every G-mode IV parameter file whose computed
points-per-cycle `round(samp_rate / excitation_frequency)` is positive,
whose pulse duration is nonnegative and whose pulse points fit in 32
bits: an absent `pulse_duration` field defaults pulse duration and pulse
height to 0 and parsing succeeds; `excitation_pulse_points =
round(pulse_duration * samp_rate)`; `excitation_extra_pts =
len(excit_wfm) mod round(samp_rate / excitation_frequency)`; and
`excitation_length = max 0 (len(excit_wfm) - excitation_pulse_points -
excitation_extra_pts)` — the original claim's unclamped difference is
recovered whenever the pulse and alignment trims fit inside the
waveform. -/
theorem giv_read_parms_arithmetic (p : GIVParmFile)
    (hppc : 0 < ptsPerCycleOf p)
    (hpd : 0 ≤ pulseDurationOf p)
    (hpp32 : npRound (pulseDurationOf p * (p.samp_rate : ℚ)) < 2 ^ 32) :
    ∃ parms wfm, giv_read_parms p = some (parms, wfm) ∧
      (p.pulse = none → parms.pulse_time = 0 ∧ parms.pulse_height = 0) ∧
      ((parms.pulse_points : Int) =
        npRound (pulseDurationOf p * (p.samp_rate : ℚ))) ∧
      (parms.extra_pts =
        Int.fmod (p.excit_wfm.length : Int) (ptsPerCycleOf p)) ∧
      ((parms.excitation_length : Int) =
        max 0 ((p.excit_wfm.length : Int) - (parms.pulse_points : Int) -
          parms.extra_pts)) := by
  have hppc0 : ptsPerCycleOf p ≠ 0 := ne_of_gt hppc
  have hfmod : Int.fmod (p.excit_wfm.length : Int) (ptsPerCycleOf p) =
      (p.excit_wfm.length : Int) % ptsPerCycleOf p :=
    Int.fmod_eq_emod _ (le_of_lt hppc)
  have hpp0 : 0 ≤ npRound (pulseDurationOf p * (p.samp_rate : ℚ)) :=
    npRound_nonneg _ (mul_nonneg hpd (by positivity))
  have hppu : ((npUint32 (npRound (pulseDurationOf p * (p.samp_rate : ℚ))) : Nat) :
      Int) = npRound (pulseDurationOf p * (p.samp_rate : ℚ)) := by
    rw [npUint32]
    omega
  rw [giv_read_parms, if_neg hppc0]
  refine ⟨_, _, rfl, ?_, ?_, rfl, ?_⟩
  · intro hnone
    constructor
    · simp [pulseDurationOf, hnone]
    · simp [pulseDurationOf, hnone]
  · exact hppu
  · have hm0 : 0 ≤ (p.excit_wfm.length : Int) % ptsPerCycleOf p :=
      Int.emod_nonneg _ hppc0
    have hmn : (p.excit_wfm.length : Int) % ptsPerCycleOf p ≤
        (p.excit_wfm.length : Int) := by
      rcases le_or_lt (ptsPerCycleOf p) ((p.excit_wfm.length : Int)) with h | h
      · exact le_of_lt (lt_of_lt_of_le (Int.emod_lt_of_pos _ hppc) h)
      · rw [Int.emod_eq_of_lt (by positivity) h]
    have hclA : (pyClamp p.excit_wfm.length
        (npRound (pulseDurationOf p * (p.samp_rate : ℚ))) : Int) =
        min (npRound (pulseDurationOf p * (p.samp_rate : ℚ)))
          (p.excit_wfm.length : Int) := by
      rw [pyClamp, if_neg (not_lt.mpr hpp0)]
      omega
    dsimp only
    rw [hppu, hfmod]
    by_cases hex : 0 < (p.excit_wfm.length : Int) % ptsPerCycleOf p
    · rw [if_pos hex, pySliceList_length]
      have hclB : (pyClamp p.excit_wfm.length
          (-((p.excit_wfm.length : Int) % ptsPerCycleOf p)) : Int) =
          (p.excit_wfm.length : Int) -
            (p.excit_wfm.length : Int) % ptsPerCycleOf p := by
        rw [pyClamp, if_pos (by omega)]
        omega
      omega
    · rw [if_neg hex, pySliceList_length]
      have hclB : (pyClamp p.excit_wfm.length (p.excit_wfm.length : Int) : Int) =
          (p.excit_wfm.length : Int) := by
        rw [pyClamp, if_neg (by omega)]
        omega
      omega

/-- C9 (amended, witness): the parameter arithmetic at a concrete file —
sampling rate 10 Hz, frequency 2 Hz (5 points per cycle), an 11-point
waveform and no pulse field. -/
theorem giv_read_parms_arithmetic_witness :
    ∃ parms wfm,
      giv_read_parms
          ⟨10, 1, 2, 0, 0, [0, 0, 0, 0, 0, 0, 0, 0, 0, 0, 0], none, 0, 1, 0, 0, 0⟩ =
        some (parms, wfm) ∧
      ((⟨10, 1, 2, 0, 0, [0, 0, 0, 0, 0, 0, 0, 0, 0, 0, 0], none, 0, 1, 0, 0, 0⟩ :
          GIVParmFile).pulse = none →
        parms.pulse_time = 0 ∧ parms.pulse_height = 0) ∧
      ((parms.pulse_points : Int) =
        npRound (pulseDurationOf
          ⟨10, 1, 2, 0, 0, [0, 0, 0, 0, 0, 0, 0, 0, 0, 0, 0], none, 0, 1, 0, 0, 0⟩ *
          ((10 : Nat) : ℚ))) ∧
      (parms.extra_pts = Int.fmod ((11 : Nat) : Int) (ptsPerCycleOf
        ⟨10, 1, 2, 0, 0, [0, 0, 0, 0, 0, 0, 0, 0, 0, 0, 0], none, 0, 1, 0, 0, 0⟩)) ∧
      ((parms.excitation_length : Int) =
        max 0 (((11 : Nat) : Int) - (parms.pulse_points : Int) - parms.extra_pts)) :=
  giv_read_parms_arithmetic
    ⟨10, 1, 2, 0, 0, [0, 0, 0, 0, 0, 0, 0, 0, 0, 0, 0], none, 0, 1, 0, 0, 0⟩
    (by norm_num [ptsPerCycleOf, npRound]) (by norm_num [pulseDurationOf])
    (by norm_num [pulseDurationOf, npRound])

/-! ## List access helpers -/

theorem getD_set_self (l : List α) (i : Nat) (x d : α) (h : i < l.length) :
    (l.set i x).getD i d = x := by
  rw [List.getD_eq_getElem _ d (by simpa using h)]
  exact List.getElem_set_self _

theorem getD_set_ne (l : List α) (i j : Nat) (x d : α) (h : i ≠ j) :
    (l.set i x).getD j d = l.getD j d := by
  by_cases hj : j < l.length
  · rw [List.getD_eq_getElem _ d (by simpa using hj), List.getD_eq_getElem _ d hj]
    exact List.getElem_set_ne h _
  · rw [List.getD_eq_default _ d (by simpa using not_lt.mp hj),
      List.getD_eq_default _ d (not_lt.mp hj)]

theorem getD_map_range {β : Type _} (f : Nat → β) (n c : Nat) (d : β) (h : c < n) :
    ((List.range n).map f).getD c d = f c := by
  rw [List.getD_eq_getElem _ d (by simpa using h), List.getElem_map]
  congr 1
  simp

theorem getD_replicate' (a : α) (n i : Nat) (d : α) (h : i < n) :
    (List.replicate n a).getD i d = a := by
  rw [List.getD_eq_getElem _ d (by simpa using h)]
  simp

/-! ## Theorems for C8 -/

theorem givMainData_length_of_full (pp : Nat) (extra : Int) (excitLen : Nat)
    (data : List (List ℚ)) (hextra : 0 ≤ extra)
    (hlen : data.length = pp + extra.toNat + excitLen) :
    (givMainData pp extra data).length = excitLen := by
  rw [givMainData]
  split
  · rename_i h0
    rw [List.length_drop]
    omega
  · rename_i h0
    rw [pySliceList_length]
    have hA : pyClamp data.length ((pp : Nat) : Int) = pp :=
      pyClamp_ofNat_le _ _ (by omega)
    have hB : (pyClamp data.length (-extra) : Int) =
        (data.length : Int) - extra := by
      rw [pyClamp, if_pos (by omega)]
      omega
    omega

/-- Invariant of the `_read_data` line loop: processing `n` lines from
`line = start` never raises when every guard-passing source row has
exactly the original waveform length; rows outside the window and rows
whose file is missing or guard-rejected keep their previous contents and
produce a warning, and guard-passing rows receive the sliced columns. -/
theorem givLoop_invariant (pp : Nat) (extra : Int) (excitLen nchan : Nat)
    (files : List (Option (List (List ℚ)))) (hextra : 0 ≤ extra) :
    ∀ (n start : Nat) (mats0 : List (List (List ℚ))) (warns0 : List String),
      mats0.length = nchan →
      (∀ c, c < nchan → start + n ≤ (mats0.getD c []).length) →
      (∀ i, start ≤ i → i < start + n → ∀ data, files.getD i none = some data →
        data.length ≥ excitLen → (data.headD []).length = nchan →
        data.length = pp + extra.toNat + excitLen) →
      ∃ mats warns,
        givLoop pp extra excitLen nchan files n start (mats0, warns0) =
          .ok (mats, warns) ∧
        mats.length = nchan ∧
        (∀ c, c < nchan → (mats.getD c []).length = (mats0.getD c []).length) ∧
        (∀ s, s ∈ warns0 → s ∈ warns) ∧
        (∀ c, c < nchan → ∀ r, r < start →
          (mats.getD c []).getD r [] = (mats0.getD c []).getD r []) ∧
        (∀ i, start ≤ i → i < start + n →
          (files.getD i none = none →
            (∀ c, c < nchan →
              (mats.getD c []).getD i [] = (mats0.getD c []).getD i []) ∧
            ("File not found for: line " ++ toString i) ∈ warns) ∧
          (∀ data, files.getD i none = some data →
            (¬(data.length ≥ excitLen ∧ (data.headD []).length = nchan) →
              (∀ c, c < nchan →
                (mats.getD c []).getD i [] = (mats0.getD c []).getD i []) ∧
              ("No data found for Line " ++ toString i) ∈ warns) ∧
            ((data.length ≥ excitLen ∧ (data.headD []).length = nchan) →
              ∀ c, c < nchan →
                (mats.getD c []).getD i [] =
                  (givMainData pp extra data).map (fun row => row.getD c 0)))) := by
  intro n
  induction n with
  | zero =>
      intro start mats0 warns0 hm _ _
      refine ⟨mats0, warns0, rfl, hm, fun c _ => rfl, fun s hs => hs,
        fun c _ r _ => rfl, fun i h1 h2 => absurd (lt_of_le_of_lt h1 h2) (by omega)⟩
  | succ n ih =>
      intro start mats0 warns0 hm hrow hwf
      rw [givLoop]
      cases hfs : files.getD start none with
      | none =>
          rw [givStep]
          obtain ⟨mats, warns, hloop, p1, p2, p3, p4, p5⟩ :=
            ih (start + 1) mats0 (warns0 ++ ["File not found for: line " ++ toString start])
              hm (fun c hc => le_trans (by omega) (hrow c hc))
              (fun i hi1 hi2 => hwf i (by omega) (by omega))
          refine ⟨mats, warns, hloop, p1, p2,
            fun s hs => p3 s (List.mem_append_left _ hs), ?_, ?_⟩
          · intro c hc r hr
            exact p4 c hc r (by omega)
          · intro i h1 h2
            rcases eq_or_lt_of_le h1 with heq | hlt
            · subst heq
              constructor
              · intro _
                exact ⟨fun c hc => p4 c hc start (by omega),
                  p3 _ (List.mem_append_right _ (by simp))⟩
              · intro data hdata
                rw [hfs] at hdata
                cases hdata
            · constructor
              · intro hnone
                exact (p5 i hlt (by omega)).1 hnone
              · intro data hdata
                exact (p5 i hlt (by omega)).2 data hdata
      | some data =>
          rw [givStep]
          by_cases hg : data.length ≥ excitLen ∧ (data.headD []).length = nchan
          · rw [if_pos hg]
            have hfull : data.length = pp + extra.toNat + excitLen :=
              hwf start le_rfl (by omega) data hfs hg.1 hg.2
            have hrl : (givMainData pp extra data).length = excitLen :=
              givMainData_length_of_full pp extra excitLen data hextra hfull
            rw [if_pos hrl]
            set newMats : List (List (List ℚ)) :=
              (List.range nchan).map (fun chan =>
                (mats0.getD chan []).set start
                  ((givMainData pp extra data).map (fun row => row.getD chan 0)))
              with hnew
            have hnm : ∀ c, c < nchan → newMats.getD c [] =
                (mats0.getD c []).set start
                  ((givMainData pp extra data).map (fun row => row.getD c 0)) := by
              intro c hc
              rw [hnew]
              exact getD_map_range _ _ _ _ hc
            obtain ⟨mats, warns, hloop, p1, p2, p3, p4, p5⟩ :=
              ih (start + 1) newMats warns0
                (by rw [hnew]; simp)
                (fun c hc => by
                  rw [hnm c hc, List.length_set]
                  exact le_trans (by omega) (hrow c hc))
                (fun i hi1 hi2 => hwf i (by omega) (by omega))
            have hlen2 : ∀ c, c < nchan →
                (mats.getD c []).length = (mats0.getD c []).length := by
              intro c hc
              rw [p2 c hc, hnm c hc, List.length_set]
            refine ⟨mats, warns, hloop, p1, hlen2, p3, ?_, ?_⟩
            · intro c hc r hr
              rw [p4 c hc r (by omega), hnm c hc,
                getD_set_ne _ _ _ _ _ (by omega)]
            · intro i h1 h2
              rcases eq_or_lt_of_le h1 with heq | hlt
              · subst heq
                constructor
                · intro hnone
                  rw [hfs] at hnone
                  cases hnone
                · intro data2 hdata2
                  rw [hfs] at hdata2
                  cases hdata2
                  constructor
                  · intro hng
                    exact absurd hg hng
                  · intro _ c hc
                    rw [p4 c hc start (by omega), hnm c hc,
                      getD_set_self _ _ _ _ (lt_of_lt_of_le (by omega) (hrow c hc))]
              · constructor
                · intro hnone
                  obtain ⟨q1, q2⟩ := (p5 i hlt (by omega)).1 hnone
                  exact ⟨fun c hc => by
                    rw [q1 c hc, hnm c hc, getD_set_ne _ _ _ _ _ (by omega)], q2⟩
                · intro data2 hdata2
                  obtain ⟨q1, q2⟩ := (p5 i hlt (by omega)).2 data2 hdata2
                  constructor
                  · intro hng
                    obtain ⟨q3, q4⟩ := q1 hng
                    exact ⟨fun c hc => by
                      rw [q3 c hc, hnm c hc, getD_set_ne _ _ _ _ _ (by omega)], q4⟩
                  · exact q2
          · rw [if_neg hg]
            obtain ⟨mats, warns, hloop, p1, p2, p3, p4, p5⟩ :=
              ih (start + 1) mats0 (warns0 ++ ["No data found for Line " ++ toString start])
                hm (fun c hc => le_trans (by omega) (hrow c hc))
                (fun i hi1 hi2 => hwf i (by omega) (by omega))
            refine ⟨mats, warns, hloop, p1, p2,
              fun s hs => p3 s (List.mem_append_left _ hs), ?_, ?_⟩
            · intro c hc r hr
              exact p4 c hc r (by omega)
            · intro i h1 h2
              rcases eq_or_lt_of_le h1 with heq | hlt
              · subst heq
                constructor
                · intro hnone
                  rw [hfs] at hnone
                  cases hnone
                · intro data2 hdata2
                  rw [hfs] at hdata2
                  cases hdata2
                  constructor
                  · intro _
                    exact ⟨fun c hc => p4 c hc start (by omega),
                      p3 _ (List.mem_append_right _ (by simp))⟩
                  · intro hg2
                    exact absurd hg2 hg
              · constructor
                · intro hnone
                  exact (p5 i hlt (by omega)).1 hnone
                · intro data2 hdata2
                  exact (p5 i hlt (by omega)).2 data2 hdata2

/-- C8 (counterexample): a source row with 3 samples passes the
undersized guard (3 ≥ excitation_length = 3) but is shorter than the
original waveform (pulse_points = 1, so 4 samples are expected); the
sliced row then has 2 < 3 entries and the h5py row assignment raises a
shape mismatch, aborting the whole run — a row-level failure that does
abort. -/
theorem giv_read_data_short_row_aborts_refutes_C8 :
    giv_read_data 1 0 3 1 1 [some [[1], [2], [3]]] =
      .error "could not broadcast" := rfl

/-- C8 (amended): during G-mode IV streaming, every row whose source
line file is missing or fails the undersized guard (fewer samples than
the excitation length, or a channel-count mismatch) gets a warning and
keeps the storage default of all zeros in every channel's main dataset,
and streaming continues; provided every guard-passing row has exactly
the original waveform length (pulse + alignment + excitation points),
the run never aborts and guard-passing rows receive their sliced
columns.  A guard-passing row of any other length aborts the run with a
shape-mismatch error. -/
theorem giv_read_data_row_policy (pp : Nat) (extra : Int)
    (excitLen numRows nchan : Nat) (files : List (Option (List (List ℚ))))
    (hextra : 0 ≤ extra)
    (hwf : ∀ i, i < numRows → ∀ data, files.getD i none = some data →
      data.length ≥ excitLen → (data.headD []).length = nchan →
      data.length = pp + extra.toNat + excitLen) :
    ∃ mats warns,
      giv_read_data pp extra excitLen numRows nchan files = .ok (mats, warns) ∧
      mats.length = nchan ∧
      (∀ c, c < nchan → (mats.getD c []).length = numRows) ∧
      (∀ i, i < numRows →
        (files.getD i none = none →
          (∀ c, c < nchan →
            (mats.getD c []).getD i [] = List.replicate excitLen 0) ∧
          ("File not found for: line " ++ toString i) ∈ warns) ∧
        (∀ data, files.getD i none = some data →
          (¬(data.length ≥ excitLen ∧ (data.headD []).length = nchan) →
            (∀ c, c < nchan →
              (mats.getD c []).getD i [] = List.replicate excitLen 0) ∧
            ("No data found for Line " ++ toString i) ∈ warns) ∧
          ((data.length ≥ excitLen ∧ (data.headD []).length = nchan) →
            ∀ c, c < nchan →
              (mats.getD c []).getD i [] =
                (givMainData pp extra data).map (fun row => row.getD c 0)))) := by
  obtain ⟨mats, warns, hloop, p1, p2, p3, p4, p5⟩ :=
    givLoop_invariant pp extra excitLen nchan files hextra numRows 0
      (List.replicate nchan (List.replicate numRows (List.replicate excitLen (0 : ℚ))))
      []
      (by simp)
      (fun c hc => by rw [getD_replicate' _ _ _ _ hc]; simp)
      (fun i hi1 hi2 => hwf i (by omega))
  have hinit : ∀ c, c < nchan → ∀ i, i < numRows →
      ((List.replicate nchan
          (List.replicate numRows (List.replicate excitLen (0 : ℚ)))).getD c
        []).getD i [] = List.replicate excitLen 0 := by
    intro c hc i hi
    rw [getD_replicate' _ _ _ _ hc, getD_replicate' _ _ _ _ hi]
  refine ⟨mats, warns, by rw [giv_read_data]; exact hloop, p1, ?_, ?_⟩
  · intro c hc
    rw [p2 c hc, getD_replicate' _ _ _ _ hc]
    simp
  · intro i hi
    obtain ⟨w1, w2⟩ := p5 i (by omega) (by omega)
    constructor
    · intro hnone
      obtain ⟨q1, q2⟩ := w1 hnone
      exact ⟨fun c hc => by rw [q1 c hc, hinit c hc i hi], q2⟩
    · intro data hdata
      obtain ⟨q1, q2⟩ := w2 data hdata
      refine ⟨?_, q2⟩
      intro hng
      obtain ⟨q3, q4⟩ := q1 hng
      exact ⟨fun c hc => by rw [q3 c hc, hinit c hc i hi], q4⟩

/-- C8 (amended, witness): the row policy at a concrete 3-row run with a
missing line file, a full-length line file and a short (guard-rejected)
line file. -/
theorem giv_read_data_row_policy_witness :
    ∃ mats warns,
      giv_read_data 1 1 2 3 1 [none, some [[1], [2], [3], [4]], some [[9]]] =
        .ok (mats, warns) ∧
      mats.length = 1 ∧
      (∀ c, c < 1 → (mats.getD c []).length = 3) ∧
      (∀ i, i < 3 →
        (([none, some [[1], [2], [3], [4]], some [[9]]] :
            List (Option (List (List ℚ)))).getD i none = none →
          (∀ c, c < 1 →
            (mats.getD c []).getD i [] = List.replicate 2 0) ∧
          ("File not found for: line " ++ toString i) ∈ warns) ∧
        (∀ data, ([none, some [[1], [2], [3], [4]], some [[9]]] :
            List (Option (List (List ℚ)))).getD i none = some data →
          (¬(data.length ≥ 2 ∧ (data.headD []).length = 1) →
            (∀ c, c < 1 →
              (mats.getD c []).getD i [] = List.replicate 2 0) ∧
            ("No data found for Line " ++ toString i) ∈ warns) ∧
          ((data.length ≥ 2 ∧ (data.headD []).length = 1) →
            ∀ c, c < 1 →
              (mats.getD c []).getD i [] =
                (givMainData 1 1 data).map (fun row => row.getD c 0)))) :=
  giv_read_data_row_policy 1 1 2 3 1 [none, some [[1], [2], [3], [4]], some [[9]]]
    (by decide)
    (by
      intro i hi data hd
      interval_cases i
      · cases hd
      · cases hd
        intro _ _
        rfl
      · cases hd
        intro h
        exact absurd h (by decide))

/-! ## Theorems for C10 -/

/-- C10: the persisted `Spectroscopic_Values` data is overridden before
commit with the measured waveform rather than the default
offset-plus-step-times-index grid: a completed G-line run commits the
float32 `BE_wave` tiled `num_cols` times; a G-mode IV run that reaches
tree building commits the trimmed excitation waveform; an Igor force
curve commits the `ZSnsr` channel (else the `Raw` channel) when one
exists, and keeps the default grid otherwise.  The final conjunct
exhibits a waveform on which the override differs from the default
grid. -/
theorem spec_values_overridden (d : GLineDir) (g : GIVInput) (p : GIVParmFile)
    (parms : GIVParms) (wfm : List ℚ)
    (hok : (gline_translate d).outcome = .completes)
    (hg : g.parmFile = some p) (hp : giv_read_parms p = some (parms, wfm))
    (hl : g.hasLine1 = true) :
    (gline_translate d).specValsData = some (npTile d.beWave d.numCols) ∧
    (giv_translate g).specValsData = some wfm ∧
    (∀ labels data zLen, "ZSnsr" ∈ labels →
      igor_force_spec_vals labels data zLen =
        data.getD (labels.indexOf "ZSnsr") []) ∧
    (∀ labels data zLen, "ZSnsr" ∉ labels → "Raw" ∈ labels →
      igor_force_spec_vals labels data zLen =
        data.getD (labels.indexOf "Raw") []) ∧
    (∀ labels data zLen, "ZSnsr" ∉ labels → "Raw" ∉ labels →
      igor_force_spec_vals labels data zLen = defaultSpecValues zLen) ∧
    npTile [5] 1 ≠ defaultSpecValues 1 := by
  refine ⟨?_, ?_, ?_, ?_, ?_, ?_⟩
  · by_cases h1 : d.hasParmMat
    · by_cases h2 : d.hasParmTxt
      · by_cases h3 : d.hasData0
        · by_cases h4 : 4 * d.beWave.length * d.numCols = 0
          · exact absurd hok (by simp [gline_translate, h1, h2, h3, h4])
          · by_cases h5 : d.fileSize % (4 * d.beWave.length * d.numCols) = 0
            · simp [gline_translate, h1, h2, h3, h4, h5]
            · exact absurd hok (by simp [gline_translate, h1, h2, h3, h4, h5])
        · exact absurd hok (by simp [gline_translate, h1, h2, h3])
      · exact absurd hok (by simp [gline_translate, h1, h2])
    · exact absurd hok (by simp [gline_translate, h1])
  · cases hd2 : giv_read_data parms.pulse_points parms.extra_pts
        parms.excitation_length parms.grid_num_rows g.nChanLine1 g.lineFiles with
    | error e => simp [giv_translate, hg, hp, hl, hd2]
    | ok st => simp [giv_translate, hg, hp, hl, hd2]
  · intro labels data zLen hz
    rw [igor_force_spec_vals, if_pos hz]
  · intro labels data zLen hz hr
    rw [igor_force_spec_vals, if_neg hz, if_pos hr]
  · intro labels data zLen hz hr
    rw [igor_force_spec_vals, if_neg hz, if_neg hr]
  · intro h
    have h5 : npTile [5] 1 = [(5 : ℚ)] := rfl
    have h0 : defaultSpecValues 1 = [(0 : ℚ)] := rfl
    rw [h5, h0] at h
    have h50 : (5 : ℚ) = 0 := List.head_eq_of_cons_eq h
    norm_num at h50

/-- C10 (witness): the override theorem at a concrete completed G-line
run (waveform `[7]`, one column, 4 data bytes) and a concrete G-mode IV
input built on the 11-point parameter file with 5 points per cycle. -/
theorem spec_values_overridden_witness :
    (gline_translate ⟨true, true, true, false, [7], 1, 4⟩).specValsData =
      some (npTile [7] 1) ∧
    (giv_translate ⟨some ⟨10, 1, 2, 0, 0,
        [0, 0, 0, 0, 0, 0, 0, 0, 0, 0], none, 0, 1, 0, 0, 0⟩,
      false, true, 1, []⟩).specValsData =
      some [0, 0, 0, 0, 0, 0, 0, 0, 0, 0] ∧
    (∀ labels data zLen, "ZSnsr" ∈ labels →
      igor_force_spec_vals labels data zLen =
        data.getD (labels.indexOf "ZSnsr") []) ∧
    (∀ labels data zLen, "ZSnsr" ∉ labels → "Raw" ∈ labels →
      igor_force_spec_vals labels data zLen =
        data.getD (labels.indexOf "Raw") []) ∧
    (∀ labels data zLen, "ZSnsr" ∉ labels → "Raw" ∉ labels →
      igor_force_spec_vals labels data zLen = defaultSpecValues zLen) ∧
    npTile [5] 1 ≠ defaultSpecValues 1 :=
  spec_values_overridden ⟨true, true, true, false, [7], 1, 4⟩
    ⟨some ⟨10, 1, 2, 0, 0, [0, 0, 0, 0, 0, 0, 0, 0, 0, 0], none, 0, 1, 0, 0, 0⟩,
      false, true, 1, []⟩
    ⟨10, 1, 2, 0, 0, [0, 0, 0, 0, 0, 0, 0, 0, 0, 0], none, 0, 1, 0, 0, 0⟩
    ⟨10, 1, 0, 0, 0, 0, 0, 10, 1, 2⟩ [0, 0, 0, 0, 0, 0, 0, 0, 0, 0]
    rfl rfl
    (by
      have h1 : ptsPerCycleOf
          ⟨10, 1, 2, 0, 0, [0, 0, 0, 0, 0, 0, 0, 0, 0, 0], none, 0, 1, 0, 0, 0⟩ =
          5 := by norm_num [ptsPerCycleOf, npRound]
      have h2 : Int.fmod (10 : Int) 5 = 0 := by decide
      have h3 : npRound (0 : ℚ) = 0 := by norm_num [npRound]
      have ht : (10 : Int).toNat = 10 := by decide
      have htk : List.take 10 ([0, 0, 0, 0, 0, 0, 0, 0, 0, 0] : List ℚ) =
          [0, 0, 0, 0, 0, 0, 0, 0, 0, 0] := List.take_of_length_le (by simp)
      rw [giv_read_parms, h1]
      norm_num [pulseDurationOf, h2, h3, pySliceList, pyClamp, npUint32, ht, htk]
      decide)
    rfl

/-! ## Theorems for C2 -/

theorem relabelOne_length (labels acc : List Nat) (i v : Nat) :
    (relabelOne labels acc i v).length = min labels.length acc.length := by
  simp [relabelOne]

theorem relabelOne_getD (labels acc : List Nat) (oldIdx v j : Nat)
    (hj : j < labels.length) (hj2 : j < acc.length) :
    (relabelOne labels acc oldIdx v).getD j 0 =
      if labels.getD j 0 = v then oldIdx else acc.getD j 0 := by
  have hlen : j < (relabelOne labels acc oldIdx v).length := by
    rw [relabelOne_length]
    omega
  rw [List.getD_eq_getElem _ _ hlen, List.getD_eq_getElem _ _ hj,
    List.getD_eq_getElem _ _ hj2]
  simp [relabelOne, List.getElem_zip]

theorem relabelLoop_length (labels : List Nat) :
    ∀ (order acc : List Nat) (idx : Nat), acc.length = labels.length →
      (relabelLoop labels acc order idx).length = labels.length := by
  intro order
  induction order with
  | nil => intro acc idx h; exact h
  | cons v rest ih =>
      intro acc idx h
      rw [relabelLoop]
      exact ih _ _ (by rw [relabelOne_length]; omega)

theorem relabelLoop_getD (labels : List Nat) :
    ∀ (order acc : List Nat) (idx j : Nat), order.Nodup →
      acc.length = labels.length → j < labels.length →
      (relabelLoop labels acc order idx).getD j 0 =
        if labels.getD j 0 ∈ order then idx + order.indexOf (labels.getD j 0)
        else acc.getD j 0 := by
  intro order
  induction order with
  | nil =>
      intro acc idx j _ _ _
      rw [relabelLoop]
      simp
  | cons v rest ih =>
      intro acc idx j hnd hacc hj
      rw [relabelLoop,
        ih _ (idx + 1) j hnd.of_cons (by rw [relabelOne_length]; omega) hj]
      by_cases hm : labels.getD j 0 ∈ rest
      · rw [if_pos hm, if_pos (List.mem_cons_of_mem _ hm)]
        have hne : labels.getD j 0 ≠ v := by
          intro he
          exact (List.nodup_cons.mp hnd).1 (he ▸ hm)
        rw [List.indexOf_cons_ne _ (Ne.symm hne)]
        omega
      · rw [if_neg hm, relabelOne_getD labels acc idx v j hj (by omega)]
        by_cases he : labels.getD j 0 = v
        · rw [if_pos he, if_pos (by rw [he]; exact List.mem_cons_self _ _), he,
            List.indexOf_cons_self]
          omega
        · rw [if_neg he, if_neg ?_]
          intro hx
          rcases List.mem_cons.mp hx with h | h
          · exact he h
          · exact hm h

theorem reorderRowsLoop_length {α : Type _} (mr : List (List α)) :
    ∀ (order : List Nat) (acc : List (List α)) (idx : Nat),
      (reorderRowsLoop mr acc order idx).length = acc.length := by
  intro order
  induction order with
  | nil => intro acc idx; rfl
  | cons v rest ih =>
      intro acc idx
      rw [reorderRowsLoop, ih, List.length_set]

theorem reorderRowsLoop_getD {α : Type _} (mr : List (List α)) :
    ∀ (order : List Nat) (acc : List (List α)) (idx p : Nat),
      idx + order.length ≤ acc.length →
      (reorderRowsLoop mr acc order idx).getD p [] =
        if idx ≤ p ∧ p < idx + order.length then
          mr.getD (order.getD (p - idx) 0) []
        else acc.getD p [] := by
  intro order
  induction order with
  | nil =>
      intro acc idx p _
      rw [reorderRowsLoop, if_neg (by simp only [List.length_nil]; omega)]
  | cons v rest ih =>
      intro acc idx p h
      simp only [List.length_cons] at h
      have hset : (acc.set idx (mr.getD v [])).length = acc.length :=
        List.length_set _ _ _
      rw [reorderRowsLoop, ih _ (idx + 1) p (by rw [hset]; omega)]
      simp only [List.length_cons]
      by_cases h1 : idx + 1 ≤ p ∧ p < idx + 1 + rest.length
      · rw [if_pos h1, if_pos (by omega)]
        have hpi : p - idx = (p - (idx + 1)) + 1 := by omega
        rw [hpi, List.getD_cons_succ]
      · rw [if_neg h1]
        by_cases h2 : p = idx
        · subst h2
          rw [getD_set_self _ _ _ _ (by omega), if_pos (by omega)]
          simp
        · rw [getD_set_ne _ _ _ _ _ (fun he => h2 he.symm),
            if_neg (by omega)]

theorem map_getD_range {α : Type _} (l : List α) (d : α) :
    (List.range l.length).map (fun j => l.getD j d) = l := by
  apply List.ext_getElem (by simp)
  intro i h1 h2
  simp only [List.getElem_map, List.getElem_range]
  exact (List.getD_eq_getElem l d h2).symm ▸ rfl

/-- C2: `reorder_clusters` is a pure relabeling whenever the scipy
linkage matrix has its documented shape (the sub-`k` entries of its merge
rows enumerate each original cluster exactly once, expressed as the
extracted order being a permutation of `0 .. k-1`) and the labels are
exactly `0 .. k-1` for `k` the mean-response row count: the label vector
keeps its length and its set of values, the mean-response matrix keeps
its row count and its rows up to permutation, the element types are
preserved by construction, and the permutations are consistent — the
mean row formerly at a row's label is found at the row's new label. -/
theorem reorder_clusters_pure_relabeling {α : Type _} [Zero α]
    (labels : List Nat) (mean_response : List (List α))
    (linkRows : List (Nat × Nat))
    (hord : (extractOrder mean_response.length linkRows).Perm
      (List.range mean_response.length))
    (hlab : ∀ v, v ∈ labels ↔ v < mean_response.length) :
    (reorder_clusters labels mean_response linkRows).1.length = labels.length ∧
    (∀ v, v ∈ (reorder_clusters labels mean_response linkRows).1 ↔ v ∈ labels) ∧
    (reorder_clusters labels mean_response linkRows).2.length =
      mean_response.length ∧
    (reorder_clusters labels mean_response linkRows).2.Perm mean_response ∧
    (∀ i, i < labels.length →
      (reorder_clusters labels mean_response linkRows).2.getD
        ((reorder_clusters labels mean_response linkRows).1.getD i 0) [] =
        mean_response.getD (labels.getD i 0) []) := by
  have horder_len : (extractOrder mean_response.length linkRows).length =
      mean_response.length := by
    rw [hord.length_eq, List.length_range]
  have hnd : (extractOrder mean_response.length linkRows).Nodup :=
    hord.symm.nodup (List.nodup_range _)
  have hmem_order : ∀ x, x ∈ extractOrder mean_response.length linkRows ↔
      x < mean_response.length := by
    intro x
    rw [hord.mem_iff, List.mem_range]
  have hzl : (labels.map fun _ => 0).length = labels.length := List.length_map _ _
  have hnl_len : (reorder_clusters labels mean_response linkRows).1.length =
      labels.length := relabelLoop_length labels _ _ 0 hzl
  have hnl_getD : ∀ i, i < labels.length →
      (reorder_clusters labels mean_response linkRows).1.getD i 0 =
        (extractOrder mean_response.length linkRows).indexOf (labels.getD i 0) := by
    intro i hi
    have hmemi : labels.getD i 0 ∈ labels := by
      rw [List.getD_eq_getElem _ _ hi]
      exact List.getElem_mem _
    have : labels.getD i 0 ∈ extractOrder mean_response.length linkRows :=
      (hmem_order _).mpr ((hlab _).mp hmemi)
    rw [show (reorder_clusters labels mean_response linkRows).1 =
        relabelLoop labels (labels.map fun _ => 0)
          (extractOrder mean_response.length linkRows) 0 from rfl,
      relabelLoop_getD labels _ _ 0 i hnd hzl hi, if_pos this, Nat.zero_add]
  have hzm : (mean_response.map fun row => row.map fun _ => (0 : α)).length =
      mean_response.length := List.length_map _ _
  have hnmr_len : (reorder_clusters labels mean_response linkRows).2.length =
      mean_response.length := by
    rw [show (reorder_clusters labels mean_response linkRows).2 =
        reorderRowsLoop mean_response
          (mean_response.map fun row => row.map fun _ => (0 : α))
          (extractOrder mean_response.length linkRows) 0 from rfl,
      reorderRowsLoop_length, hzm]
  have hnmr_getD : ∀ p, p < mean_response.length →
      (reorder_clusters labels mean_response linkRows).2.getD p [] =
        mean_response.getD
          ((extractOrder mean_response.length linkRows).getD p 0) [] := by
    intro p hp
    rw [show (reorder_clusters labels mean_response linkRows).2 =
        reorderRowsLoop mean_response
          (mean_response.map fun row => row.map fun _ => (0 : α))
          (extractOrder mean_response.length linkRows) 0 from rfl,
      reorderRowsLoop_getD mean_response _ _ 0 p (by rw [hzm]; omega),
      if_pos (by constructor <;> omega)]
    simp
  refine ⟨hnl_len, ?_, hnmr_len, ?_, ?_⟩
  · intro v
    constructor
    · intro hv
      obtain ⟨i, hi, hiv⟩ := List.mem_iff_getElem.mp hv
      have hi2 : i < labels.length := by omega
      have hvv : v = (extractOrder mean_response.length linkRows).indexOf
          (labels.getD i 0) := by
        rw [← hiv, ← List.getD_eq_getElem _ 0 hi, hnl_getD i hi2]
      have hmemi : labels.getD i 0 ∈ labels := by
        rw [List.getD_eq_getElem _ _ hi2]
        exact List.getElem_mem _
      have : labels.getD i 0 ∈ extractOrder mean_response.length linkRows :=
        (hmem_order _).mpr ((hlab _).mp hmemi)
      have := List.indexOf_lt_length.mpr this
      rw [horder_len] at this
      exact (hlab v).mpr (by omega)
    · intro hv
      have hvk : v < mean_response.length := (hlab v).mp hv
      have hvo : v < (extractOrder mean_response.length linkRows).length := by
        omega
      set u := (extractOrder mean_response.length linkRows)[v] with hu
      have humem : u ∈ extractOrder mean_response.length linkRows :=
        List.getElem_mem _
      have huk : u < mean_response.length := (hmem_order u).mp humem
      obtain ⟨i, hi, hiu⟩ := List.mem_iff_getElem.mp ((hlab u).mpr huk)
      have hieq : labels.getD i 0 = u := by
        rw [List.getD_eq_getElem _ _ hi, hiu]
      have hnli : (reorder_clusters labels mean_response linkRows).1.getD i 0 = v := by
        rw [hnl_getD i hi, hieq, hu]
        exact List.indexOf_getElem hnd v hvo
      rw [List.mem_iff_getElem]
      refine ⟨i, by omega, ?_⟩
      rw [← List.getD_eq_getElem _ 0 (by omega : i <
        (reorder_clusters labels mean_response linkRows).1.length), hnli]
  · have heq : (reorder_clusters labels mean_response linkRows).2 =
        (extractOrder mean_response.length linkRows).map
          (fun j => mean_response.getD j []) := by
      apply List.ext_getElem (by rw [hnmr_len, List.length_map, horder_len])
      intro p h1 h2
      have hp : p < mean_response.length := by rw [hnmr_len] at h1; omega
      rw [← List.getD_eq_getElem _ [] h1, hnmr_getD p hp, List.getElem_map]
      congr 1
      rw [List.getD_eq_getElem _ 0 (by omega : p <
        (extractOrder mean_response.length linkRows).length)]
    have hrange : ((List.range mean_response.length).map
        (fun j => mean_response.getD j [])) = mean_response :=
      map_getD_range mean_response []
    have hperm := hord.map (fun j => mean_response.getD j [])
    rw [hrange] at hperm
    rw [heq]
    exact hperm
  · intro i hi
    have hmemi : labels.getD i 0 ∈ labels := by
      rw [List.getD_eq_getElem _ _ hi]
      exact List.getElem_mem _
    have huk : labels.getD i 0 < mean_response.length := (hlab _).mp hmemi
    have hmemo : labels.getD i 0 ∈ extractOrder mean_response.length linkRows :=
      (hmem_order _).mpr huk
    have hidx : (extractOrder mean_response.length linkRows).indexOf
        (labels.getD i 0) < (extractOrder mean_response.length linkRows).length :=
      List.indexOf_lt_length.mpr hmemo
    rw [hnl_getD i hi, hnmr_getD _ (by omega)]
    congr 1
    rw [List.getD_eq_getElem _ 0 hidx]
    exact List.getElem_indexOf hidx

/-- C2 (witness): the relabeling theorem at a concrete two-cluster input:
labels `[0, 1, 0]`, mean rows `[[10], [20]]`, linkage row `(1, 0)`. -/
theorem reorder_clusters_pure_relabeling_witness :
    (reorder_clusters [0, 1, 0] [[(10 : Int)], [20]] [(1, 0)]).1.length =
      ([0, 1, 0] : List Nat).length ∧
    (∀ v, v ∈ (reorder_clusters [0, 1, 0] [[(10 : Int)], [20]] [(1, 0)]).1 ↔
      v ∈ ([0, 1, 0] : List Nat)) ∧
    (reorder_clusters [0, 1, 0] [[(10 : Int)], [20]] [(1, 0)]).2.length =
      ([[(10 : Int)], [20]] : List (List Int)).length ∧
    (reorder_clusters [0, 1, 0] [[(10 : Int)], [20]] [(1, 0)]).2.Perm
      [[(10 : Int)], [20]] ∧
    (∀ i, i < ([0, 1, 0] : List Nat).length →
      (reorder_clusters [0, 1, 0] [[(10 : Int)], [20]] [(1, 0)]).2.getD
        ((reorder_clusters [0, 1, 0] [[(10 : Int)], [20]] [(1, 0)]).1.getD i 0)
        [] =
        ([[(10 : Int)], [20]] : List (List Int)).getD
          (([0, 1, 0] : List Nat).getD i 0) []) :=
  reorder_clusters_pure_relabeling [0, 1, 0] [[(10 : Int)], [20]] [(1, 0)]
    (by decide)
    (by
      intro v
      simp only [List.mem_cons, List.not_mem_nil, or_false, List.length_cons,
        List.length_nil]
      omega)

/-! ## Theorems for C3 -/

/-- Gathering by `argwhere` indices equals filtering the zipped rows:
mapping any extraction over the label-matching positions of `xs` equals
mapping it over the second components of the label-matching pairs of
`xs.zip ys`. -/
theorem filter_range_getD_eq {β γ : Type _} (g : β → γ) (l : Nat) (dB : β) :
    ∀ (xs : List Nat) (ys : List β), xs.length = ys.length →
      ((List.range xs.length).filter (fun i => decide (xs.getD i 0 = l))).map
        (fun i => g (ys.getD i dB)) =
      ((xs.zip ys).filter (fun p => decide (p.1 = l))).map (fun p => g p.2) := by
  intro xs
  induction xs with
  | nil =>
      intro ys _
      simp
  | cons x xs ih =>
      intro ys h
      cases ys with
      | nil => exact absurd h (by simp)
      | cons y ys =>
          have hlen2 : xs.length = ys.length := by simpa using h
          simp only [List.length_cons, List.range_succ_eq_map, List.filter_cons,
            List.getD_cons_zero, List.getD_cons_succ, List.zip_cons_cons,
            List.filter_map, Function.comp_def, List.map_map]
          by_cases hx : x = l
          · rw [if_pos (by simp [hx]), if_pos (by simp [hx])]
            simp only [List.map_cons, List.map_map, Function.comp_def,
              List.getD_cons_zero, List.getD_cons_succ, Nat.succ_eq_add_one]
            rw [ih ys hlen2]
          · rw [if_neg (by simp [hx]), if_neg (by simp [hx])]
            simp only [List.map_map, Function.comp_def, List.getD_cons_succ,
              Nat.succ_eq_add_one]
            rw [ih ys hlen2]

/-- C3: `_get_mean_response` returns one row per distinct label and, for
labels that are exactly `0 .. k-1`, its row `l` at feature `j` is the
inverse transform of the mean, computed in transformed real space, of the
selected column `sel[j]` over exactly the rows of the main dataset that
carry label `l`. -/
theorem get_mean_response_rows {α : Type _} [Inhabited α]
    (transform : α → ℚ) (inv : ℚ → α) (labels : List Nat)
    (data : List (List α)) (sel : List Nat) (num_comps k : Nat)
    (hlen : labels.length = data.length)
    (hlab : labels.toFinset = Finset.range k)
    (hnum : num_comps = sel.length) :
    (get_mean_response transform inv labels data sel num_comps).length = k ∧
    (∀ row ∈ get_mean_response transform inv labels data sel num_comps,
      row.length = num_comps) ∧
    (∀ l, l < k → ∀ j, j < num_comps →
      ((get_mean_response transform inv labels data sel num_comps).getD l
        []).getD j default =
        inv (((((labels.zip data).filter (fun p => decide (p.1 = l))).map
            (fun p => transform (p.2.getD (sel.getD j 0) default))).sum) /
          ((((labels.zip data).filter
            (fun p => decide (p.1 = l))).length : ℚ)))) := by
  have hcard : labels.toFinset.card = k := by rw [hlab, Finset.card_range]
  refine ⟨?_, ?_, ?_⟩
  · rw [get_mean_response]
    simp [hcard]
  · intro row hrow
    rw [get_mean_response] at hrow
    obtain ⟨c, _, rfl⟩ := List.mem_map.mp hrow
    simp
  · intro l hl j hj
    have hl2 : l < labels.toFinset.card := by omega
    have hjs : j < sel.length := by omega
    have hsel : ∀ row : List α,
        (select_columns sel row).getD j default =
          row.getD (sel.getD j 0) default := by
      intro row
      simp only [select_columns]
      rw [List.getD_eq_getElem _ _ (by rw [List.length_map]; omega),
        List.getElem_map]
      congr 1
      rw [List.getD_eq_getElem _ 0 hjs]
    rw [get_mean_response, getD_map_range _ _ _ _ hl2, getD_map_range _ _ _ _ hj,
      List.length_map, List.map_map]
    have hstep1 :
        ((List.range labels.length).filter
          (fun i => decide (labels.getD i 0 = l))).map
          ((fun row : List α => transform (row.getD j default)) ∘
            (fun i => (data.map (select_columns sel)).getD i [])) =
        ((List.range labels.length).filter
          (fun i => decide (labels.getD i 0 = l))).map
          (fun i => (fun row : List α =>
            transform (row.getD (sel.getD j 0) default)) (data.getD i [])) := by
      apply List.map_congr_left
      intro i hi
      have hi2 : i < labels.length := List.mem_range.mp (List.mem_filter.mp hi).1
      have hi3 : i < data.length := by omega
      simp only [Function.comp_apply]
      rw [List.getD_eq_getElem _ ([] : List α) (by rw [List.length_map]; omega),
        List.getElem_map, ← List.getD_eq_getElem data ([] : List α) hi3, hsel]
    rw [hstep1,
      filter_range_getD_eq (fun row : List α =>
        transform (row.getD (sel.getD j 0) default)) l [] labels data hlen]
    have hlen_eq := congrArg List.length
      (filter_range_getD_eq (fun row : List α => row) l [] labels data hlen)
    simp only [List.length_map] at hlen_eq
    rw [hlen_eq]

/-- C3 (witness): the mean-response theorem at a concrete 3-pixel,
2-cluster dataset with identity transforms and the single selected
column 1. -/
theorem get_mean_response_rows_witness :
    (get_mean_response (fun q : ℚ => q) (fun q : ℚ => q) [0, 1, 0]
      [[1, 2], [3, 4], [5, 6]] [1] 1).length = 2 ∧
    (∀ row ∈ get_mean_response (fun q : ℚ => q) (fun q : ℚ => q) [0, 1, 0]
      [[1, 2], [3, 4], [5, 6]] [1] 1, row.length = 1) ∧
    (∀ l, l < 2 → ∀ j, j < 1 →
      ((get_mean_response (fun q : ℚ => q) (fun q : ℚ => q) [0, 1, 0]
        [[1, 2], [3, 4], [5, 6]] [1] 1).getD l []).getD j default =
        (fun q : ℚ => q)
          ((((([0, 1, 0] : List Nat).zip
              ([[1, 2], [3, 4], [5, 6]] : List (List ℚ))).filter
              (fun p => decide (p.1 = l))).map
            (fun p => (fun q : ℚ => q)
              (p.2.getD (([1] : List Nat).getD j 0) default))).sum /
          (((([0, 1, 0] : List Nat).zip
              ([[1, 2], [3, 4], [5, 6]] : List (List ℚ))).filter
            (fun p => decide (p.1 = l))).length : ℚ))) :=
  get_mean_response_rows (fun q : ℚ => q) (fun q : ℚ => q) [0, 1, 0]
    [[1, 2], [3, 4], [5, 6]] [1] 1 2 rfl (by decide) rfl

end Pycroscopy
